import Mathlib

/-!
Verification of the AurumV1 Web Application Firewall against its
natural-language specification.

The repository ships the React admin frontend (Dashboard, SecurityLogs,
DomainManagement, AuthContext) together with a specification of the
backend proxy core (domain registry, rule engine, rate limiter, security
log sink, request pipeline).  The backend implementation itself is not
part of the source tree, so the core components are modelled here from
the specification text, while the frontend components are embedded
directly from the JavaScript source.
-/

namespace Waf

/-! ## Rate limiter (spec section 4.3) -/

/-- Modelled from the spec: a RateCounter keyed by (domain, client ip)
holds a count and a window start timestamp (seconds). -/
structure RateCounter where
  count : Nat
  windowStart : Nat
deriving DecidableEq

/-- Modelled from the spec: outcome of a rate limiter check. -/
inductive RateDecision where
  | allowed
  | exceeded
deriving DecidableEq, BEq

/-- Modelled from the spec: the rolling window is one hour. -/
def windowSeconds : Nat := 3600

/-- Modelled from the spec: the rate limiter check.  The backend
implementation is absent from the source tree; this follows spec 4.3:
no counter means create one with count 1 and return allowed; an elapsed
window resets count to 1 and the window start to now; otherwise the
count is incremented and compared against the limit, without reverting
the increment on an exceeded verdict. -/
def rateCheck (ctr : Option RateCounter) (now limit : Nat) :
    RateDecision × RateCounter :=
  match ctr with
  | none => (RateDecision.allowed, ⟨1, now⟩)
  | some c =>
    if windowSeconds ≤ now - c.windowStart then
      (RateDecision.allowed, ⟨1, now⟩)
    else if c.count + 1 > limit then
      (RateDecision.exceeded, ⟨c.count + 1, c.windowStart⟩)
    else
      (RateDecision.allowed, ⟨c.count + 1, c.windowStart⟩)

/-- Modelled from the spec: a sequence of checks against one key.  The
spec makes the increment-and-compare a single atomic operation, so any
concurrent schedule is observationally a serialization, modelled as a
list of call timestamps processed in order. -/
def runSeq (limit : Nat) : Option RateCounter → List Nat →
    List RateDecision × Option RateCounter
  | ctr, [] => ([], ctr)
  | ctr, t :: ts =>
    let r := rateCheck ctr t limit
    let rest := runSeq limit (some r.2) ts
    (r.1 :: rest.1, rest.2)

/-- Number of allowed decisions in a list. -/
def countAllowed (ds : List RateDecision) : Nat :=
  ds.countP (fun d => d == RateDecision.allowed)

/-! ## Character-list utilities for pattern matching -/

/-- `beginsWith needle hay` is true when `hay` starts with `needle`. -/
def beginsWith : List Char → List Char → Bool
  | [], _ => true
  | _ :: _, [] => false
  | n :: ns, h :: hs => (n == h) && beginsWith ns hs

/-- `containsSub needle hay` is true when `needle` occurs as a contiguous
run of characters inside `hay`. -/
def containsSub (needle : List Char) : List Char → Bool
  | [] => beginsWith needle []
  | h :: hs => beginsWith needle (h :: hs) || containsSub needle hs

/-- `endsWithSub needle hay` is true when `hay` ends with `needle`. -/
def endsWithSub (needle hay : List Char) : Bool :=
  beginsWith needle.reverse hay.reverse

/-- The characters of a string, lower-cased. -/
def lowerStr (s : String) : List Char :=
  s.data.map Char.toLower

/-! ## Rule engine (spec section 4.2) -/

/-- An inbound HTTP request as seen by the rule engine: method, path,
query string, body and header list. -/
structure HttpRequest where
  method : String
  path : String
  query : String
  body : String
  headers : List (String × String)
deriving DecidableEq

/-- Modelled from the spec: per-domain strictness setting. -/
inductive SecurityLevel where
  | relaxed
  | moderate
  | strict
deriving DecidableEq

/-- Modelled from the spec: the eight attack-signature categories. -/
inductive Category where
  | malformedRequest
  | blockedFileExtension
  | suspiciousUserAgent
  | suspiciousHeader
  | pathTraversal
  | commandInjection
  | sqlInjection
  | xss
deriving DecidableEq

/-- The spec name of each rule category (spec section 3, Rule). -/
def catName : Category → String
  | .malformedRequest => "Malformed Request"
  | .blockedFileExtension => "Blocked File Extension"
  | .suspiciousUserAgent => "Suspicious User Agent"
  | .suspiciousHeader => "Suspicious Header"
  | .pathTraversal => "Path Traversal"
  | .commandInjection => "Command Injection"
  | .sqlInjection => "SQL Injection"
  | .xss => "XSS"

/-- Modelled from the spec: fixed evaluation order of the categories,
spec section 4.2 items 1 to 8. -/
def catOrder : List Category :=
  [.malformedRequest, .blockedFileExtension, .suspiciousUserAgent,
   .suspiciousHeader, .pathTraversal, .commandInjection, .sqlInjection, .xss]

/-- Modelled from the spec: request body size ceiling of 10 MB. -/
def maxBodyBytes : Nat := 10 * 1024 * 1024

/-- Modelled from the spec: fixed URL length ceiling. -/
def maxUrlLen : Nat := 2048

/-- Modelled from the spec: structural ceiling on the header count. -/
def maxHeaderCount : Nat := 100

/-- Modelled from the spec: ceiling on a single header value size, used
by the oversized-header check. -/
def maxHeaderValueLen : Nat := 8192

/-- Modelled from the spec: disallowed executable and script path
extensions. -/
def blockedExtensions : List String :=
  [".exe", ".bat", ".cmd", ".sh", ".php", ".asp", ".aspx", ".jsp", ".cgi"]

/-- Modelled from the spec: blocklist of known scanner and bot
user-agent substrings. -/
def suspiciousAgents : List String :=
  ["sqlmap", "nikto", "nessus", "masscan", "nmap", "dirbuster", "hydra"]

/-- Modelled from the spec: known exploit header names associated with
injection probing. -/
def exploitHeaderNames : List String :=
  ["x-original-url", "x-rewrite-url"]

/-- Modelled from the spec: path traversal signatures, literal and
URL-encoded; the strict level adds broadened encoded variants. -/
def traversalPatterns : SecurityLevel → List String
  | .relaxed => ["../", "..\\"]
  | .moderate => ["../", "..\\", "%2e%2e%2f", "%2e%2e/", "..%2f"]
  | .strict => ["../", "..\\", "%2e%2e%2f", "%2e%2e/", "..%2f",
      "%c0%ae", "....//"]

/-- Modelled from the spec: command injection signatures, shell
metacharacters adjacent to common binary names; the relaxed level keeps
only the most unambiguous exact sequences. -/
def cmdPatterns : SecurityLevel → List String
  | .relaxed => ["`whoami`", ";rm -rf", "|nc "]
  | .moderate => ["`whoami`", ";rm -rf", "|nc ", ";ls", ";cat", "|cat",
      "&&ls", "`id`", "$(id)"]
  | .strict => ["`whoami`", ";rm -rf", "|nc ", ";ls", ";cat", "|cat",
      "&&ls", "`id`", "$(id)", ";wget", ";curl", "%3bls", "%7ccat"]

/-- Modelled from the spec: SQL injection signatures matched
case-insensitively; the relaxed level keeps only exact unambiguous
keyword matches and the strict level adds encoded variants. -/
def sqlPatterns : SecurityLevel → List String
  | .relaxed => ["union select", "or 1=1"]
  | .moderate => ["union select", "or 1=1", "drop table", "insert into",
      "select * from", "--", "/*"]
  | .strict => ["union select", "or 1=1", "drop table", "insert into",
      "select * from", "--", "/*", "union%20select", "%27"]

/-- Modelled from the spec: XSS signatures, script-tag markers, inline
event-handler attributes and javascript-scheme values; the relaxed level
keeps only the exact tag match and the strict level adds encoded
variants. -/
def xssPatterns : SecurityLevel → List String
  | .relaxed => ["<script"]
  | .moderate => ["<script", "javascript:", "onerror=", "onload=",
      "<iframe"]
  | .strict => ["<script", "javascript:", "onerror=", "onload=",
      "<iframe", "%3cscript", "alert("]

/-- Lower-cased characters of path then query. -/
def pathQueryChars (req : HttpRequest) : List Char :=
  lowerStr req.path ++ lowerStr req.query

/-- Lower-cased characters of query then body. -/
def queryBodyChars (req : HttpRequest) : List Char :=
  lowerStr req.query ++ lowerStr req.body

/-- Lower-cased characters of path, query and body. -/
def allChars (req : HttpRequest) : List Char :=
  lowerStr req.path ++ lowerStr req.query ++ lowerStr req.body

/-- The User-Agent header value, matched on the lower-cased name. -/
def userAgentOf (req : HttpRequest) : Option String :=
  (req.headers.find? (fun h => lowerStr h.fst == "user-agent".data)).map
    (fun h => h.snd)

/-- Whether any of the given string patterns occurs in the target. -/
def anyPattern (pats : List String) (target : List Char) : Bool :=
  pats.any (fun p => containsSub p.data target)

/-- Modelled from the spec: the detection predicate of each category at
a given strictness level (spec section 4.2 items 1 to 8). -/
def categoryMatches (c : Category) (level : SecurityLevel)
    (req : HttpRequest) : Bool :=
  match c with
  | .malformedRequest =>
      decide (req.body.length > maxBodyBytes) ||
      decide (req.path.length + req.query.length > maxUrlLen) ||
      req.headers.any (fun h =>
        (h.fst.data ++ h.snd.data).contains (Char.ofNat 0)) ||
      decide (req.headers.length > maxHeaderCount) ||
      req.headers.any (fun h => h.fst.isEmpty)
  | .blockedFileExtension =>
      blockedExtensions.any (fun ext =>
        endsWithSub (lowerStr ext) (lowerStr req.path))
  | .suspiciousUserAgent =>
      match userAgentOf req with
      | some ua => anyPattern suspiciousAgents (lowerStr ua)
      | none => level == SecurityLevel.strict
  | .suspiciousHeader =>
      req.headers.any (fun h =>
        exploitHeaderNames.any (fun n => lowerStr h.fst == n.data) ||
        decide (h.snd.length > maxHeaderValueLen) ||
        h.snd.data.contains (Char.ofNat 13) ||
        h.snd.data.contains (Char.ofNat 10))
  | .pathTraversal => anyPattern (traversalPatterns level) (pathQueryChars req)
  | .commandInjection => anyPattern (cmdPatterns level) (allChars req)
  | .sqlInjection => anyPattern (sqlPatterns level) (queryBodyChars req)
  | .xss => anyPattern (xssPatterns level) (allChars req)

/-- Modelled from the spec: which categories are active at each level.
Relaxed activates only categories 1 and 2 plus the unambiguous
signatures of 6, 7 and 8; moderate and strict activate all. -/
def activeCategory (level : SecurityLevel) (c : Category) : Bool :=
  match level with
  | .relaxed =>
      match c with
      | .malformedRequest | .blockedFileExtension => true
      | .commandInjection | .sqlInjection | .xss => true
      | _ => false
  | .moderate => true
  | .strict => true

/-- A category fires when it is active at the level and its predicate
matches the request. -/
def activeMatch (level : SecurityLevel) (c : Category)
    (req : HttpRequest) : Bool :=
  activeCategory level c && categoryMatches c level req

/-- Verdict of an inspection: clean, or flagged with a category and a
details string. -/
inductive Verdict where
  | clean
  | flagged (category : Category) (details : String)
deriving DecidableEq

/-- Modelled from the spec: `inspect` evaluates the eight categories in
the fixed order of section 4.2, short-circuiting on the first active
category whose predicate matches, and returns Clean when none fires. -/
def inspect (req : HttpRequest) (level : SecurityLevel) : Verdict :=
  if activeMatch level .malformedRequest req then
    .flagged .malformedRequest (catName .malformedRequest)
  else if activeMatch level .blockedFileExtension req then
    .flagged .blockedFileExtension (catName .blockedFileExtension)
  else if activeMatch level .suspiciousUserAgent req then
    .flagged .suspiciousUserAgent (catName .suspiciousUserAgent)
  else if activeMatch level .suspiciousHeader req then
    .flagged .suspiciousHeader (catName .suspiciousHeader)
  else if activeMatch level .pathTraversal req then
    .flagged .pathTraversal (catName .pathTraversal)
  else if activeMatch level .commandInjection req then
    .flagged .commandInjection (catName .commandInjection)
  else if activeMatch level .sqlInjection req then
    .flagged .sqlInjection (catName .sqlInjection)
  else if activeMatch level .xss req then
    .flagged .xss (catName .xss)
  else
    .clean

/-- The first-match specification of the rule engine: the verdict is
determined by the earliest category in `catOrder` that is active and
matches, and is Clean exactly when no active category matches. -/
def inspectSpec (req : HttpRequest) (level : SecurityLevel) : Verdict :=
  match catOrder.find? (fun c => activeMatch level c req) with
  | some c => .flagged c (catName c)
  | none => .clean

/-- A concrete request whose path contains the traversal payload and
which matches no other category. -/
def travReq : HttpRequest :=
  ⟨"GET", "/a/../../etc/passwd", "", "",
   [("host", "x.com"), ("user-agent", "mozilla")]⟩

/-! ## Domain registry (spec section 4.1) -/

/-- One protected domain, as in spec section 3 and the admin frontend
(DomainManagement.js fields). -/
structure DomainConfig where
  domain_name : String
  target_url : String
  security_level : SecurityLevel
  rate_limit : Nat
  is_active : Bool
deriving DecidableEq

/-- Case-insensitive exact hostname comparison. -/
def matchesHost (d : DomainConfig) (host : String) : Bool :=
  lowerStr d.domain_name == lowerStr host

/-- Modelled from the spec: `resolve` is a pure lookup returning the
matching config, or nothing when no entry matches case-insensitively or
the matching entry is inactive. -/
def resolve (reg : List DomainConfig) (host : String) : Option DomainConfig :=
  match reg.find? (fun d => matchesHost d host) with
  | some d => if d.is_active then some d else none
  | none => none

/-- A concrete two-entry registry for the C5 witness. -/
def reg0 : List DomainConfig :=
  [⟨"Example.com", "http://backend-one", SecurityLevel.moderate, 100, true⟩,
   ⟨"off.example", "http://backend-two", SecurityLevel.strict, 50, false⟩]

/-! ## Security log sink and request pipeline (spec sections 4.4, 4.5) -/

/-- Immutable security event record (spec section 3 and the log table
rendered by SecurityLogs.js). -/
structure SecurityLogEntry where
  timestamp : Nat
  client_ip : String
  request_method : String
  request_path : String
  reason : String
  user_agent : String
  details : String
deriving DecidableEq

/-- Terminal states of the per-request pipeline (spec section 4.5). -/
inductive PipelineOutcome where
  | forwarded
  | blocked
  | rejectedUnknownHost
  | rejectedUpstreamError
deriving DecidableEq

/-- A new log entry for a blocked or flagged request. -/
def mkLogEntry (now : Nat) (ip : String) (req : HttpRequest)
    (reason details : String) : SecurityLogEntry :=
  ⟨now, ip, req.method, req.path, reason, (userAgentOf req).getD "", details⟩

/-- Modelled from the spec: the request pipeline of section 4.5.  Host
resolution failure rejects with 404 and no log entry; a rate limit hit
blocks with 429 and a log entry; a flagged inspection blocks with 403
and a log entry; otherwise the request is forwarded, or rejected with
502 on upstream failure, in both cases without a security log entry. -/
def handleRequest (reg : List DomainConfig) (ctr : Option RateCounter)
    (logs : List SecurityLogEntry) (host ip : String) (req : HttpRequest)
    (now : Nat) (upstreamOk : Bool) :
    PipelineOutcome × Nat × List SecurityLogEntry :=
  match resolve reg host with
  | none => (.rejectedUnknownHost, 404, logs)
  | some cfg =>
    match (rateCheck ctr now cfg.rate_limit).1 with
    | .exceeded =>
      (.blocked, 429,
        logs ++ [mkLogEntry now ip req "Rate Limit Exceeded"
          "rate limit exceeded"])
    | .allowed =>
      match inspect req cfg.security_level with
      | .flagged c d =>
        (.blocked, 403, logs ++ [mkLogEntry now ip req (catName c) d])
      | .clean =>
        if upstreamOk then (.forwarded, 200, logs)
        else (.rejectedUpstreamError, 502, logs)

/-- A minimal concrete request for pipeline witnesses. -/
def emptyReq : HttpRequest := ⟨"GET", "/", "", "", []⟩

/-! ## Log reason vocabulary and the admin filter (C7) -/

/-- Modelled from the spec: the reason written to a log entry is a rule
category name or the rate limit string. -/
def reasonVocabulary : List String :=
  ["Malformed Request", "Blocked File Extension", "Suspicious User Agent",
   "Suspicious Header", "Path Traversal", "Command Injection",
   "SQL Injection", "XSS", "Rate Limit Exceeded"]

/-- The reason options of the filter dropdown in SecurityLogs.js lines
134 to 143, transcribed from the source. -/
def filterReasonOptions : List String :=
  ["SQL Injection", "XSS Attack", "Command Injection", "Path Traversal",
   "Suspicious Header", "Blocked File Extension", "Malformed Request",
   "Suspicious User Agent"]

/-- A concrete log entry for the C7 witness. -/
def logEntry0 : SecurityLogEntry :=
  ⟨0, "203.0.113.9", "GET", "/", "SQL Injection", "curl", "details"⟩

/-! ## Admin statistics and log query (spec sections 4.4, 6; Dashboard.js,
SecurityLogs.js) -/

/-- Substring test on strings, used by the free-text log search. -/
def strContains (hay needle : String) : Bool :=
  containsSub needle.data hay.data

/-- The stats record consumed by Dashboard.js: total_domains,
active_domains, total_requests, blocked_requests, recent_attacks and
top_attack_types. -/
structure WafStats where
  total_domains : Nat
  active_domains : Nat
  total_requests : Nat
  blocked_requests : Nat
  recent_attacks : Nat
  top_attack_types : List (String × Nat)
deriving DecidableEq

/-- Modelled from the spec: free-text search over ip, path and method,
as requested by SecurityLogs.js through the search parameter. -/
def matchesSearch (e : SecurityLogEntry) (search : String) : Bool :=
  search.isEmpty || strContains e.client_ip search ||
  strContains e.request_path search || strContains e.request_method search

/-- Modelled from the spec: filter by reason, as requested by
SecurityLogs.js through the reason parameter; an empty filter selects
all reasons. -/
def matchesReasonFilter (e : SecurityLogEntry) (reason : String) : Bool :=
  reason.isEmpty || e.reason == reason

/-- Modelled from the spec: the admin log query over the stored
entries. -/
def queryLogs (logs : List SecurityLogEntry) (search reason : String) :
    List SecurityLogEntry :=
  logs.filter (fun e => matchesSearch e search && matchesReasonFilter e reason)

/-- Count of entries per reason. -/
def reasonCount (logs : List SecurityLogEntry) (r : String) : Nat :=
  (logs.filter (fun e => e.reason == r)).length

/-- Grouped counts per reason over the distinct reasons present. -/
def attackTypeCounts (logs : List SecurityLogEntry) : List (String × Nat) :=
  ((logs.map (fun e => e.reason)).dedup).map
    (fun r => (r, reasonCount logs r))

/-- Insertion into a count-descending list. -/
def insertByCount (x : String × Nat) :
    List (String × Nat) → List (String × Nat)
  | [] => [x]
  | y :: ys => if y.2 ≤ x.2 then x :: y :: ys else y :: insertByCount x ys

/-- Insertion sort by descending count. -/
def sortByCount : List (String × Nat) → List (String × Nat)
  | [] => []
  | x :: xs => insertByCount x (sortByCount xs)

/-- Top attack types: grouped reason counts sorted descending,
truncated to the first `n`. -/
def topAttackTypes (logs : List SecurityLogEntry) (n : Nat) :
    List (String × Nat) :=
  (sortByCount (attackTypeCounts logs)).take n

/-- Seconds in 24 hours, the window of the recent-attacks count. -/
def daySeconds : Nat := 86400

/-- Modelled from the spec: the aggregate statistics, each derived from
the stored domain records, observed request timestamps and log entries
rather than stored redundantly. -/
def computeStats (domains : List DomainConfig) (requests : List Nat)
    (logs : List SecurityLogEntry) (now topN : Nat) : WafStats :=
  ⟨domains.length,
   (domains.filter (fun d => d.is_active)).length,
   requests.length,
   logs.length,
   (logs.filter (fun e => now - e.timestamp < daySeconds)).length,
   topAttackTypes logs topN⟩

/-! ## Admin authentication state (AuthContext.js) -/

/-- The AuthProvider state: the isAuthenticated flag, the in-memory
token, and the localStorage value under the key waf_token. -/
structure AuthState where
  isAuthenticated : Bool
  token : Option String
  storedToken : Option String
deriving DecidableEq

/-- Initial provider state before the load effect runs
(AuthContext.js lines 15 to 17): not authenticated, no token. -/
def initialAuthState (stored : Option String) : AuthState :=
  ⟨false, none, stored⟩

/-- The mount effect (AuthContext.js lines 19 to 26): a truthy stored
value, that is a present non-empty string, sets the token and marks the
session authenticated without any server-side validation. -/
def loadStoredToken (s : AuthState) : AuthState :=
  match s.storedToken with
  | some t => if t.isEmpty then s else ⟨true, some t, some t⟩
  | none => s

/-- Successful login (AuthContext.js lines 28 to 37): stores the access
token and marks the session authenticated. -/
def loginAuth (_s : AuthState) (access_token : String) : AuthState :=
  ⟨true, some access_token, some access_token⟩

/-- Logout (AuthContext.js lines 46 to 50): removes the stored token,
clears the token and marks the session unauthenticated. -/
def logoutAuth (_s : AuthState) : AuthState :=
  ⟨false, none, none⟩

/-- The AuthProvider invariant: authenticated exactly when a token is
held. -/
def authInvariant (s : AuthState) : Prop :=
  s.isAuthenticated = true ↔ s.token ≠ none

/-! ## Dashboard block rate (Dashboard.js lines 90 to 92) -/

/-- Rounding to two decimal places, the model of toFixed(2) on the
block-rate percentage. -/
def toFixed2 (x : ℚ) : ℚ :=
  (round (x * 100) : ℤ) / 100

/-- The block-rate computation of Dashboard.js: when stats are present
and total_requests is positive it is the blocked percentage rounded to
two decimals, and 0 otherwise. -/
def blockRate (stats : Option WafStats) : ℚ :=
  match stats with
  | some s =>
    if 0 < s.total_requests then
      toFixed2 (((s.blocked_requests : ℚ) / (s.total_requests : ℚ)) * 100)
    else 0
  | none => 0

/-- Concrete stats for the C10 witness: 1 blocked of 4 requests. -/
def stats0 : WafStats := ⟨2, 1, 4, 1, 0, []⟩

/-! ## Theorems -/

theorem rateCheck_fresh (t L : Nat) :
    rateCheck none t L = (RateDecision.allowed, ⟨1, t⟩) := rfl

theorem rateCheck_in_allowed {t w c L : Nat} (h : t - w < windowSeconds)
    (hc : c + 1 ≤ L) :
    rateCheck (some ⟨c, w⟩) t L = (RateDecision.allowed, ⟨c + 1, w⟩) := by
  simp only [rateCheck]
  rw [if_neg (by omega), if_neg (by omega)]

theorem rateCheck_in_exceeded {t w c L : Nat} (h : t - w < windowSeconds)
    (hc : L < c + 1) :
    rateCheck (some ⟨c, w⟩) t L = (RateDecision.exceeded, ⟨c + 1, w⟩) := by
  simp only [rateCheck]
  rw [if_neg (by omega), if_pos (by omega)]

theorem rateCheck_reset {t w : Nat} (c L : Nat) (h : windowSeconds ≤ t - w) :
    rateCheck (some ⟨c, w⟩) t L = (RateDecision.allowed, ⟨1, t⟩) := by
  simp only [rateCheck]
  rw [if_pos h]

theorem countAllowed_cons (d : RateDecision) (ds : List RateDecision) :
    countAllowed (d :: ds) =
      countAllowed ds + (if d == RateDecision.allowed then 1 else 0) := by
  simp [countAllowed, List.countP_cons]

/-- Helper invariant: starting from a live counter holding count `c`, a
sequence of in-window calls admits at most `L - c` further requests. -/
theorem countAllowed_runSeq_le (ts : List Nat) :
    ∀ c w L : Nat, (∀ t ∈ ts, t - w < windowSeconds) →
      countAllowed (runSeq L (some ⟨c, w⟩) ts).1 ≤ L - c := by
  induction ts with
  | nil => intro c w L _; simp [runSeq, countAllowed]
  | cons t ts ih =>
    intro c w L h
    have ht : t - w < windowSeconds := h t (List.mem_cons_self t ts)
    have hts : ∀ u ∈ ts, u - w < windowSeconds :=
      fun u hu => h u (List.mem_cons_of_mem t hu)
    have hrec := ih (c + 1) w L hts
    by_cases hc : c + 1 ≤ L
    · have hstep : rateCheck (some ⟨c, w⟩) t L =
          (RateDecision.allowed, ⟨c + 1, w⟩) := rateCheck_in_allowed ht hc
      rw [show runSeq L (some ⟨c, w⟩) (t :: ts) =
          (RateDecision.allowed :: (runSeq L (some ⟨c + 1, w⟩) ts).1,
            (runSeq L (some ⟨c + 1, w⟩) ts).2) by
            simp [runSeq, hstep]]
      rw [countAllowed_cons]
      simp only [show (RateDecision.allowed == RateDecision.allowed) = true
        from rfl, if_true]
      omega
    · have hstep : rateCheck (some ⟨c, w⟩) t L =
          (RateDecision.exceeded, ⟨c + 1, w⟩) :=
        rateCheck_in_exceeded ht (by omega)
      rw [show runSeq L (some ⟨c, w⟩) (t :: ts) =
          (RateDecision.exceeded :: (runSeq L (some ⟨c + 1, w⟩) ts).1,
            (runSeq L (some ⟨c + 1, w⟩) ts).2) by
            simp [runSeq, hstep]]
      rw [countAllowed_cons]
      simp only [show (RateDecision.exceeded == RateDecision.allowed) = false
        from rfl]
      simp only [Bool.false_eq_true, if_false]
      omega

theorem beginsWith_iff (n : List Char) :
    ∀ h : List Char, beginsWith n h = true ↔ ∃ rest, h = n ++ rest := by
  induction n with
  | nil => intro h; simp [beginsWith]
  | cons a ns ih =>
    intro h
    cases h with
    | nil =>
      simp only [beginsWith, List.cons_append]
      constructor
      · intro hfalse; cases hfalse
      · rintro ⟨rest, hrest⟩; cases hrest
    | cons b hs =>
      simp only [beginsWith, Bool.and_eq_true, beq_iff_eq, List.cons_append,
        ih hs]
      constructor
      · rintro ⟨rfl, rest, rfl⟩; exact ⟨rest, rfl⟩
      · rintro ⟨rest, heq⟩
        injection heq with h1 h2
        exact ⟨h1.symm, rest, h2⟩

theorem containsSub_iff (n : List Char) :
    ∀ h : List Char, containsSub n h = true ↔
      ∃ pre post, h = pre ++ (n ++ post) := by
  intro h
  induction h with
  | nil =>
    simp only [containsSub, beginsWith_iff]
    constructor
    · rintro ⟨rest, hrest⟩; exact ⟨[], rest, hrest⟩
    · rintro ⟨pre, post, hpp⟩
      cases pre with
      | nil => exact ⟨post, hpp⟩
      | cons p ps => cases hpp
  | cons c hs ih =>
    simp only [containsSub, Bool.or_eq_true, beginsWith_iff, ih]
    constructor
    · rintro (⟨rest, hrest⟩ | ⟨pre, post, hpp⟩)
      · exact ⟨[], rest, by simpa using hrest⟩
      · exact ⟨c :: pre, post, by simp [hpp]⟩
    · rintro ⟨pre, post, hpp⟩
      cases pre with
      | nil => exact Or.inl ⟨post, by simpa using hpp⟩
      | cons p ps =>
        injection hpp with h1 h2
        exact Or.inr ⟨ps, post, h2⟩

theorem containsSub_map (f : Char → Char) (n h : List Char)
    (hc : containsSub n h = true) :
    containsSub (n.map f) (h.map f) = true := by
  rw [containsSub_iff] at hc ⊢
  obtain ⟨pre, post, rfl⟩ := hc
  exact ⟨pre.map f, post.map f, by simp⟩

theorem containsSub_extend (n h h2 : List Char)
    (hc : containsSub n h = true) :
    containsSub n (h ++ h2) = true := by
  rw [containsSub_iff] at hc ⊢
  obtain ⟨pre, post, rfl⟩ := hc
  exact ⟨pre, post ++ h2, by simp⟩

theorem containsSub_extend_left (n h h2 : List Char)
    (hc : containsSub n h = true) :
    containsSub n (h2 ++ h) = true := by
  rw [containsSub_iff] at hc ⊢
  obtain ⟨pre, post, rfl⟩ := hc
  exact ⟨h2 ++ pre, post, by simp⟩

/-- If the big needle occurs in `hay` and the small needle occurs in the
big needle, the small needle occurs in `hay`. -/
theorem containsSub_trans {small big hay : List Char}
    (hsb : containsSub small big = true)
    (hbh : containsSub big hay = true) :
    containsSub small hay = true := by
  rw [containsSub_iff] at hsb hbh ⊢
  obtain ⟨p1, s1, rfl⟩ := hsb
  obtain ⟨p2, s2, rfl⟩ := hbh
  exact ⟨p2 ++ p1, s1 ++ s2, by simp⟩

/-- C2: for every request and level, `inspect` agrees with the
first-match specification: the verdict is Flagged at the earliest
category of the fixed order whose active predicate matches, and Clean
when no active category matches. -/
theorem inspect_order_and_short_circuit (req : HttpRequest)
    (level : SecurityLevel) :
    inspect req level = inspectSpec req level := by
  unfold inspect inspectSpec catOrder
  cases h1 : activeMatch level Category.malformedRequest req with
  | true => simp [List.find?, h1]
  | false =>
  cases h2 : activeMatch level Category.blockedFileExtension req with
  | true => simp [List.find?, h1, h2]
  | false =>
  cases h3 : activeMatch level Category.suspiciousUserAgent req with
  | true => simp [List.find?, h1, h2, h3]
  | false =>
  cases h4 : activeMatch level Category.suspiciousHeader req with
  | true => simp [List.find?, h1, h2, h3, h4]
  | false =>
  cases h5 : activeMatch level Category.pathTraversal req with
  | true => simp [List.find?, h1, h2, h3, h4, h5]
  | false =>
  cases h6 : activeMatch level Category.commandInjection req with
  | true => simp [List.find?, h1, h2, h3, h4, h5, h6]
  | false =>
  cases h7 : activeMatch level Category.sqlInjection req with
  | true => simp [List.find?, h1, h2, h3, h4, h5, h6, h7]
  | false =>
  cases h8 : activeMatch level Category.xss req with
  | true => simp [List.find?, h1, h2, h3, h4, h5, h6, h7, h8]
  | false => simp [List.find?, h1, h2, h3, h4, h5, h6, h7, h8]

/-- C3 counterexample: at the relaxed level the Path Traversal category
is inactive (spec 4.2 activates only categories 1 and 2 and the
unambiguous signatures of 6 to 8 there), so a request whose path
contains the traversal payload is not flagged as Path Traversal but
returns Clean. -/
theorem traversal_not_flagged_at_relaxed :
    inspect travReq SecurityLevel.relaxed = Verdict.clean := by decide

/-- C3 as amended: at moderate and strict, a request whose path contains
the literal payload and which does not fire any of the four earlier
categories is flagged as Path Traversal; at relaxed the category is
inactive, as the counterexample shows. -/
theorem traversal_flagged_at_moderate_and_strict
    (req : HttpRequest) (level : SecurityLevel)
    (hlevel : level = SecurityLevel.moderate ∨ level = SecurityLevel.strict)
    (hp : containsSub ("../../etc/passwd").data req.path.data = true)
    (hm : categoryMatches Category.malformedRequest level req = false)
    (hb : categoryMatches Category.blockedFileExtension level req = false)
    (hu : categoryMatches Category.suspiciousUserAgent level req = false)
    (hh : categoryMatches Category.suspiciousHeader level req = false) :
    inspect req level =
      Verdict.flagged Category.pathTraversal
        (catName Category.pathTraversal) := by
  have hlow : containsSub ("../../etc/passwd").data (lowerStr req.path)
      = true := by
    have hmap :=
      containsSub_map Char.toLower ("../../etc/passwd").data req.path.data hp
    rw [show ("../../etc/passwd").data.map Char.toLower =
      ("../../etc/passwd").data from by decide] at hmap
    exact hmap
  have hsmall : containsSub ("../").data ("../../etc/passwd").data = true := by
    decide
  have hpath : containsSub ("../").data (lowerStr req.path) = true :=
    containsSub_trans hsmall hlow
  have htarget : containsSub ("../").data (pathQueryChars req) = true :=
    containsSub_extend _ _ _ hpath
  have hmem : "../" ∈ traversalPatterns level := by
    rcases hlevel with rfl | rfl <;> decide
  have hcat : categoryMatches Category.pathTraversal level req = true := by
    simp only [categoryMatches, anyPattern, List.any_eq_true]
    exact ⟨"../", hmem, htarget⟩
  have hact : activeCategory level Category.pathTraversal = true := by
    rcases hlevel with rfl | rfl <;> rfl
  have h5 : activeMatch level Category.pathTraversal req = true := by
    simp [activeMatch, hact, hcat]
  have f1 : activeMatch level Category.malformedRequest req = false := by
    simp [activeMatch, hm]
  have f2 : activeMatch level Category.blockedFileExtension req = false := by
    simp [activeMatch, hb]
  have f3 : activeMatch level Category.suspiciousUserAgent req = false := by
    simp [activeMatch, hu]
  have f4 : activeMatch level Category.suspiciousHeader req = false := by
    simp [activeMatch, hh]
  simp [inspect, f1, f2, f3, f4, h5]

/-- Witness for the amended C3 at the concrete traversal request and the
moderate level. -/
theorem traversal_flagged_moderate_witness :
    inspect travReq SecurityLevel.moderate =
      Verdict.flagged Category.pathTraversal
        (catName Category.pathTraversal) :=
  traversal_flagged_at_moderate_and_strict travReq SecurityLevel.moderate
    (Or.inl rfl) (by decide) (by decide) (by decide) (by decide) (by decide)

theorem matchesHost_eq {d : DomainConfig} {host : String}
    (h : matchesHost d host = true) :
    lowerStr d.domain_name = lowerStr host := by
  simpa [matchesHost, beq_iff_eq] using h

/-- C5: under the registry invariant that domain names are unique up to
case, `resolve` returns nothing exactly when no entry matches the host
case-insensitively or the unique matching entry is inactive, and it
returns the matching active entry otherwise.  The lookup is a pure
function of the registry and the host. -/
theorem resolve_contract (reg : List DomainConfig) (host : String)
    (huniq : ∀ d1 ∈ reg, ∀ d2 ∈ reg,
      lowerStr d1.domain_name = lowerStr d2.domain_name → d1 = d2) :
    (resolve reg host = none ↔
      (∀ d ∈ reg, matchesHost d host = false) ∨
      (∃ d ∈ reg, matchesHost d host = true ∧ d.is_active = false)) ∧
    (∀ d ∈ reg, matchesHost d host = true → d.is_active = true →
      resolve reg host = some d) := by
  cases hf : reg.find? (fun d => matchesHost d host) with
  | none =>
    have hnone : ∀ d ∈ reg, matchesHost d host = false := by
      intro d hd
      have := List.find?_eq_none.mp hf d hd
      simpa using this
    constructor
    · constructor
      · intro _; exact Or.inl hnone
      · intro _; simp [resolve, hf]
    · intro d hd hmatch _
      rw [hnone d hd] at hmatch
      cases hmatch
  | some d0 =>
    have hp0 : matchesHost d0 host = true := by
      have := List.find?_some hf
      simpa using this
    have hmem : d0 ∈ reg := List.mem_of_find?_eq_some hf
    have hsame : ∀ d ∈ reg, matchesHost d host = true → d = d0 := by
      intro d hd hmatch
      exact huniq d hd d0 hmem
        ((matchesHost_eq hmatch).trans (matchesHost_eq hp0).symm)
    cases hact : d0.is_active with
    | true =>
      have hres : resolve reg host = some d0 := by
        simp [resolve, hf, hact]
      constructor
      · constructor
        · intro habs; rw [hres] at habs; cases habs
        · rintro (hnone | ⟨d, hd, hmatch, hinact⟩)
          · rw [hnone d0 hmem] at hp0; cases hp0
          · rw [hsame d hd hmatch] at hinact
            rw [hact] at hinact; cases hinact
      · intro d hd hmatch _
        rw [hsame d hd hmatch]; exact hres
    | false =>
      have hres : resolve reg host = none := by
        simp [resolve, hf, hact]
      constructor
      · constructor
        · intro _; exact Or.inr ⟨d0, hmem, hp0, hact⟩
        · intro _; exact hres
      · intro d hd hmatch hdact
        rw [hsame d hd hmatch] at hdact
        rw [hact] at hdact; cases hdact

/-- Witness for C5: resolving the upper-cased host against the concrete
registry. -/
theorem resolve_contract_witness :
    (resolve reg0 "EXAMPLE.COM" = none ↔
      (∀ d ∈ reg0, matchesHost d "EXAMPLE.COM" = false) ∨
      (∃ d ∈ reg0, matchesHost d "EXAMPLE.COM" = true ∧
        d.is_active = false)) ∧
    (∀ d ∈ reg0, matchesHost d "EXAMPLE.COM" = true → d.is_active = true →
      resolve reg0 "EXAMPLE.COM" = some d) :=
  resolve_contract reg0 "EXAMPLE.COM" (by decide)

/-- C6: a request whose host does not resolve reaches the terminal state
RejectedUnknownHost with status 404 and leaves the log entries
unchanged. -/
theorem unknown_host_rejected (reg : List DomainConfig)
    (ctr : Option RateCounter) (logs : List SecurityLogEntry)
    (host ip : String) (req : HttpRequest) (now : Nat) (up : Bool)
    (h : resolve reg host = none) :
    handleRequest reg ctr logs host ip req now up =
      (PipelineOutcome.rejectedUnknownHost, 404, logs) := by
  simp [handleRequest, h]

/-- Witness for C6 with an empty registry and a host that is not
configured. -/
theorem unknown_host_rejected_witness :
    handleRequest [] none [] "notconfigured.example" "203.0.113.9"
      emptyReq 0 true = (PipelineOutcome.rejectedUnknownHost, 404, []) :=
  unknown_host_rejected [] none [] "notconfigured.example" "203.0.113.9"
    emptyReq 0 true rfl

theorem catName_mem_vocab (c : Category) : catName c ∈ reasonVocabulary := by
  cases c <;> decide

/-- C7 counterexample: the filter dropdown cannot select the value
"Rate Limit Exceeded", although it belongs to the reason vocabulary of
the log entries. -/
theorem filter_missing_rate_limit_reason :
    ¬ ("Rate Limit Exceeded" ∈ filterReasonOptions) := by decide

/-- C7 as amended: every log entry appended by the pipeline carries a
reason from the vocabulary of the eight category names plus
"Rate Limit Exceeded"; the filter dropdown offers the category names
except that XSS appears as "XSS Attack", and it offers neither
"Rate Limit Exceeded" nor the bare name "XSS". -/
theorem log_reason_vocabulary_amended
    (reg : List DomainConfig) (ctr : Option RateCounter)
    (logs : List SecurityLogEntry) (host ip : String) (req : HttpRequest)
    (now : Nat) (up : Bool) (e : SecurityLogEntry)
    (he : e ∈ (handleRequest reg ctr logs host ip req now up).2.2) :
    (e ∈ logs ∨ e.reason ∈ reasonVocabulary) ∧
    "XSS Attack" ∈ filterReasonOptions ∧
    ¬ ("Rate Limit Exceeded" ∈ filterReasonOptions) ∧
    ¬ ("XSS" ∈ filterReasonOptions) ∧
    (∀ r ∈ filterReasonOptions,
      r = "XSS Attack" ∨ r ∈ reasonVocabulary) := by
  refine ⟨?_, by decide, by decide, by decide, by decide⟩
  unfold handleRequest at he
  cases hr : resolve reg host with
  | none => simp only [hr] at he; exact Or.inl he
  | some cfg =>
    simp only [hr] at he
    cases hd : (rateCheck ctr now cfg.rate_limit).1 with
    | exceeded =>
      simp only [hd] at he
      rcases List.mem_append.mp he with hin | hnew
      · exact Or.inl hin
      · rcases List.mem_singleton.mp hnew with rfl
        exact Or.inr (show "Rate Limit Exceeded" ∈ reasonVocabulary by decide)
    | allowed =>
      simp only [hd] at he
      cases hv : inspect req cfg.security_level with
      | flagged c d =>
        simp only [hv] at he
        rcases List.mem_append.mp he with hin | hnew
        · exact Or.inl hin
        · rcases List.mem_singleton.mp hnew with rfl
          exact Or.inr (catName_mem_vocab c)
      | clean =>
        simp only [hv] at he
        cases up with
        | true => simp at he; exact Or.inl he
        | false => simp at he; exact Or.inl he

/-- Witness for the amended C7 at a concrete pipeline invocation. -/
theorem log_reason_vocabulary_amended_witness :
    (logEntry0 ∈ [logEntry0] ∨ logEntry0.reason ∈ reasonVocabulary) ∧
    "XSS Attack" ∈ filterReasonOptions ∧
    ¬ ("Rate Limit Exceeded" ∈ filterReasonOptions) ∧
    ¬ ("XSS" ∈ filterReasonOptions) ∧
    (∀ r ∈ filterReasonOptions,
      r = "XSS Attack" ∨ r ∈ reasonVocabulary) :=
  log_reason_vocabulary_amended [] none [logEntry0] "h.example" "203.0.113.9"
    emptyReq 0 true logEntry0 (by decide)

/-- C8: the aggregate statistics operation returns the six dashboard
quantities, each derived from the stored records, and the log query
selects exactly the stored entries matching the free-text search over
ip, path and method together with the reason filter. -/
theorem stats_derived_and_query_complete (domains : List DomainConfig)
    (requests : List Nat) (logs : List SecurityLogEntry) (now topN : Nat)
    (search reason : String) (e : SecurityLogEntry) :
    (computeStats domains requests logs now topN).total_domains =
      domains.length ∧
    (computeStats domains requests logs now topN).active_domains =
      (domains.filter (fun d => d.is_active)).length ∧
    (computeStats domains requests logs now topN).total_requests =
      requests.length ∧
    (computeStats domains requests logs now topN).blocked_requests =
      logs.length ∧
    (computeStats domains requests logs now topN).recent_attacks =
      (logs.filter (fun x => now - x.timestamp < daySeconds)).length ∧
    (computeStats domains requests logs now topN).top_attack_types =
      (sortByCount (attackTypeCounts logs)).take topN ∧
    (e ∈ queryLogs logs search reason ↔
      e ∈ logs ∧ matchesSearch e search = true ∧
        matchesReasonFilter e reason = true) := by
  refine ⟨rfl, rfl, rfl, rfl, rfl, rfl, ?_⟩
  simp [queryLogs, List.mem_filter, Bool.and_eq_true, and_assoc]

/-- C9: the invariant that isAuthenticated is true exactly when token is
non-null holds initially and is preserved by the load effect, login and
logout; on load a present non-empty stored value yields an
authenticated state holding that token, with no validation step in the
transition; logout clears the stored token, the token and the flag. -/
theorem auth_invariant_maintained :
    (∀ stored, authInvariant (initialAuthState stored)) ∧
    (∀ s, authInvariant s → authInvariant (loadStoredToken s)) ∧
    (∀ s t, authInvariant (loginAuth s t)) ∧
    (∀ s, authInvariant (logoutAuth s)) ∧
    (∀ t : String, t.isEmpty = false →
      loadStoredToken (initialAuthState (some t)) = ⟨true, some t, some t⟩) ∧
    (∀ s, logoutAuth s = ⟨false, none, none⟩) := by
  refine ⟨?_, ?_, ?_, ?_, ?_, ?_⟩
  · intro stored; simp [authInvariant, initialAuthState]
  · intro s hs
    unfold loadStoredToken
    cases hst : s.storedToken with
    | none => exact hs
    | some t =>
      by_cases hemp : t.isEmpty
      · simp [hemp]; exact hs
      · simp [hemp, authInvariant]
  · intro s t; simp [authInvariant, loginAuth]
  · intro s; simp [authInvariant, logoutAuth]
  · intro t ht; simp [loadStoredToken, initialAuthState, ht]
  · intro s; rfl

/-- Witness for C9: the invariant holds after loading a concrete stored
token. -/
theorem auth_invariant_maintained_witness :
    authInvariant (loadStoredToken (initialAuthState (some "tok0"))) :=
  auth_invariant_maintained.2.1 (initialAuthState (some "tok0"))
    (by simp [authInvariant, initialAuthState])

/-- C10: the block rate is the rounded percentage exactly when
total_requests is positive, and 0 when the count is zero or the stats
are absent, so the division never runs with a zero or missing
denominator. -/
theorem block_rate_guarded :
    (∀ s : WafStats, 0 < s.total_requests →
      blockRate (some s) =
        toFixed2 (((s.blocked_requests : ℚ) / (s.total_requests : ℚ)) * 100)) ∧
    (∀ s : WafStats, s.total_requests = 0 → blockRate (some s) = 0) ∧
    blockRate none = 0 := by
  refine ⟨?_, ?_, rfl⟩
  · intro s h; simp [blockRate, h]
  · intro s h; simp [blockRate, h]

/-- Witness for C10 at the concrete stats. -/
theorem block_rate_guarded_witness :
    blockRate (some stats0) =
      toFixed2 (((stats0.blocked_requests : ℚ) /
        (stats0.total_requests : ℚ)) * 100) :=
  block_rate_guarded.1 stats0 (by decide)

/-- C1: with limit 5, six calls on the same key whose timestamps all fall
within one hour of the first yield Allowed five times then Exceeded, the
counter advancing to 6 without the increment being reverted; a subsequent
call at a time at least one hour past the window start resets the counter
to a fresh count of 1 and returns Allowed. -/
theorem rate_limiter_window_behavior
    (t0 t1 t2 t3 t4 t5 t6 : Nat)
    (h1 : t1 - t0 < windowSeconds) (h2 : t2 - t0 < windowSeconds)
    (h3 : t3 - t0 < windowSeconds) (h4 : t4 - t0 < windowSeconds)
    (h5 : t5 - t0 < windowSeconds) (h6 : windowSeconds ≤ t6 - t0) :
    runSeq 5 none [t0, t1, t2, t3, t4, t5] =
      ([RateDecision.allowed, RateDecision.allowed, RateDecision.allowed,
        RateDecision.allowed, RateDecision.allowed, RateDecision.exceeded],
       some ⟨6, t0⟩) ∧
    rateCheck (some ⟨6, t0⟩) t6 5 = (RateDecision.allowed, ⟨1, t6⟩) := by
  have s1 : rateCheck (some ⟨1, t0⟩) t1 5 =
      (RateDecision.allowed, ⟨2, t0⟩) := rateCheck_in_allowed h1 (by omega)
  have s2 : rateCheck (some ⟨2, t0⟩) t2 5 =
      (RateDecision.allowed, ⟨3, t0⟩) := rateCheck_in_allowed h2 (by omega)
  have s3 : rateCheck (some ⟨3, t0⟩) t3 5 =
      (RateDecision.allowed, ⟨4, t0⟩) := rateCheck_in_allowed h3 (by omega)
  have s4 : rateCheck (some ⟨4, t0⟩) t4 5 =
      (RateDecision.allowed, ⟨5, t0⟩) := rateCheck_in_allowed h4 (by omega)
  have s5 : rateCheck (some ⟨5, t0⟩) t5 5 =
      (RateDecision.exceeded, ⟨6, t0⟩) := rateCheck_in_exceeded h5 (by omega)
  constructor
  · simp [runSeq, rateCheck_fresh, s1, s2, s3, s4, s5]
  · exact rateCheck_reset 6 5 h6

/-- Witness for C1 at concrete timestamps 0, 10, .., 50 and 3600. -/
theorem rate_limiter_window_behavior_witness :
    runSeq 5 none [0, 10, 20, 30, 40, 50] =
      ([RateDecision.allowed, RateDecision.allowed, RateDecision.allowed,
        RateDecision.allowed, RateDecision.allowed, RateDecision.exceeded],
       some ⟨6, 0⟩) ∧
    rateCheck (some ⟨6, 0⟩) 3600 5 = (RateDecision.allowed, ⟨1, 3600⟩) :=
  rate_limiter_window_behavior 0 10 20 30 40 50 3600
    (by decide) (by decide) (by decide) (by decide) (by decide) (by decide)

/-- C4: any schedule of calls on one key within a single window admits at
most `L` requests.  The spec requires the increment-and-compare to be one
atomic operation on the shared counter, so a concurrent schedule is
modelled as an arbitrary serialization of the atomic checks; the bound
holds for every such serialization. -/
theorem rate_limiter_concurrent_bound
    (t0 : Nat) (ts : List Nat) (L : Nat) (hL : 0 < L)
    (h : ∀ t ∈ ts, t - t0 < windowSeconds) :
    countAllowed (runSeq L none (t0 :: ts)).1 ≤ L := by
  rw [show runSeq L none (t0 :: ts) =
    ((RateDecision.allowed) :: (runSeq L (some ⟨1, t0⟩) ts).1,
      (runSeq L (some ⟨1, t0⟩) ts).2) by simp [runSeq, rateCheck_fresh]]
  have := countAllowed_runSeq_le ts 1 t0 L h
  rw [countAllowed_cons]
  simp only [show (RateDecision.allowed == RateDecision.allowed) = true
    from rfl, if_true]
  omega

/-- Witness for C4: seven in-window calls against a limit of 3 admit at
most 3. -/
theorem rate_limiter_concurrent_bound_witness :
    countAllowed (runSeq 3 none (0 :: [5, 5, 7, 9, 100, 200])).1 ≤ 3 :=
  rate_limiter_concurrent_bound 0 [5, 5, 7, 9, 100, 200] 3 (by decide)
    (by decide)

end Waf

